import Mathlib

/-!
Verification of the dnsbl DNS blocklist responder (dnsbl.py).

Shallow byte-level embedding: Python byte strings are `List Nat` (each
entry a byte value), and Python text strings are represented by their
UTF-8 byte sequences, also `List Nat` (all concrete strings in the
program are ASCII, and splitting or joining UTF-8 bytes on the dot byte
46 agrees with splitting or joining the text on the dot character, since
46 never occurs as a UTF-8 continuation byte).  A Python exception that
escapes a function is modelled as `Except.error ()`.
-/

namespace Dnsbl

/-- Byte sequence of an ASCII string literal. -/
def S (s : String) : List Nat := s.data.map Char.toNat

/-- Python slice b[a:b] for nonnegative bounds: clamping, never failing. -/
def pySlice (l : List Nat) (a b : Nat) : List Nat := (l.drop a).take (b - a)

/-- struct.unpack of a big-endian unsigned short: requires exactly two
bytes, raising struct.error otherwise.  Models the second branch of the
source function short. -/
def shortOfBytes (b : List Nat) : Except Unit Nat :=
  match b with
  | [hi, lo] => .ok (hi * 256 + lo)
  | _ => .error ()

/-- The two bytes of the big-endian encoding of a value below 65536. -/
def pack16 (n : Nat) : List Nat := [n / 256, n % 256]

/-- struct.pack of a big-endian unsigned short: raises struct.error when
the value does not fit.  Models the first branch of the source function
short. -/
def shortOfNat (n : Nat) : Except Unit (List Nat) :=
  if n ≤ 65535 then .ok (pack16 n) else .error ()

/-- STANDARD = 0x100, standard query bit. -/
def STANDARD : Nat := 0x100

/-- DNSSEC = 0x20. -/
def DNSSEC : Nat := 0x20

/-- EXPECTED = STANDARD | DNSSEC. -/
def EXPECTED : Nat := STANDARD ||| DNSSEC

/-- Source function standard(flags).  Python evaluates
flags & ~EXPECTED == 0 and flags & EXPECTED in [STANDARD, EXPECTED];
on a nonnegative int, flags & ~EXPECTED clears the EXPECTED bits, which
on Nat is flags ^^^ (flags &&& EXPECTED). -/
def standard (flags : Nat) : Bool :=
  flags ^^^ (flags &&& EXPECTED) == 0 &&
    (flags &&& EXPECTED == STANDARD || flags &&& EXPECTED == EXPECTED)

/-- The label loop of parse_name: repeatedly read a length byte and take
that many bytes as a label, until a zero length byte; return the labels
and the bytes after the terminator.  Reading past the end of the buffer
(query[offset] with offset at or past the length) raises IndexError,
modelled as an error.  The loop is driven by fuel, one unit per
iteration; each iteration consumes at least one byte, so the callers
fuel of length + 1 can never be exhausted. -/
def parseNameLoop : Nat → List Nat → Except Unit (List (List Nat) × List Nat)
  | 0, _ => .error ()
  | _ + 1, [] => .error ()
  | fuel + 1, c :: rest =>
    if c = 0 then .ok ([], rest)
    else
      match parseNameLoop fuel (rest.drop c) with
      | .ok (labels, tail) => .ok (rest.take c :: labels, tail)
      | .error e => .error e

/-- Source function parse_name(query): decode the labels, then read the
big-endian query type and query class from the two two-byte slices after
the terminator; return the dot-joined name when both equal 1, and None
(here `none`) otherwise.  Python slices clamp, and struct.unpack raises
on a slice shorter than two bytes. -/
def parse_name (query : List Nat) : Except Unit (Option (List Nat)) :=
  match parseNameLoop (query.length + 1) query with
  | .error e => .error e
  | .ok (name, tail) =>
    match shortOfBytes (tail.take 2) with
    | .error e => .error e
    | .ok querytype =>
      match shortOfBytes ((tail.drop 2).take 2) with
      | .error e => .error e
      | .ok queryclass =>
        .ok (if querytype = 1 ∧ queryclass = 1
             then some (List.intercalate [46] name) else none)

/-- Length-prefixed encoding of a list of labels: one length byte then
the label bytes, per label. -/
def encodeLabels (ls : List (List Nat)) : List Nat :=
  (ls.map (fun p => p.length :: p)).flatten

/-- Source function dnsname(host_name): split the name on dots, append
an empty part as terminator, and emit one length byte plus the bytes of
each part.  bytes([n]) raises ValueError when a part is longer than 255,
modelled as `none`.  (The source also appends an extra 0 to its lengths
list, which its loop over range(len(parts)) never reads.) -/
def dnsname (host_name : List Nat) : Option (List Nat) :=
  let parts := host_name.splitOn 46 ++ [[]]
  if parts.all (fun p => p.length ≤ 255) then some (encodeLabels parts)
  else none

/-- Source function reverse(ip_address): split on dots, reverse the
parts, join with dots. -/
def reverse (ip_address : List Nat) : List Nat :=
  List.intercalate [46] ((ip_address.splitOn 46).reverse)

/-- ASCII decimal digit test, modelling the regex class backslash-d. -/
def isDigit (b : Nat) : Bool := 48 ≤ b && b ≤ 57

/-- The configured domain, default value of the DNSBL_DOMAIN environment
variable. -/
def DNSBL_DOMAIN : List Nat := S "dnsbl.gnixl.com"

/-- Match of the anchored PATTERN from the source against a host name:
the host must be PRE ++ "." ++ DNSBL_DOMAIN where PRE consists of four
dot-separated nonempty decimal digit groups; on success return the first
capture group PRE.  The split point is forced by the anchors and the
fixed length of the literal domain tail. -/
def patternMatch (host : List Nat) : Option (List Nat) :=
  let tail := 46 :: DNSBL_DOMAIN
  if tail.length ≤ host.length ∧ host.drop (host.length - tail.length) = tail
  then
    let pre := host.take (host.length - tail.length)
    match pre.splitOn 46 with
    | [a, b, c, d] =>
      if (a :: b :: c :: [d]).all (fun g => !g.isEmpty && g.all isDigit)
      then some pre else none
    | _ => none
  else none

/-- Source function ipaddress(host): PATTERN.match, then reverse the
captured dotted quad; None when the pattern does not match. -/
def ipaddress (host : List Nat) : Option (List Nat) :=
  match patternMatch host with
  | some group1 => some (reverse group1)
  | none => none

/-- Source function reply(txid, lookup) with the external blocklist
store abstracted as a key-existence predicate (the source checks
os.path.exists on the key joined under DNSBL_DIRECTORY).  The Python
condition `path and os.path.exists(path)` is false when lookup is None,
when it is the empty string (falsy, so path is None), and when the store
misses; in all those cases the reply is txid plus the NXDOMAIN flags. -/
def reply (store : List Nat → Bool) (txid : Nat) (lookup : Option (List Nat)) :
    Except Unit (List Nat) :=
  match shortOfNat txid with
  | .error e => .error e
  | .ok response =>
    match lookup with
    | some s =>
      if s ≠ [] ∧ store s = true then
        match dnsname s with
        | some nameBytes =>
          .ok (response ++ pack16 0x8180 ++
            (pack16 0x1 ++ pack16 0x1 ++ pack16 0 ++ pack16 0) ++
            nameBytes ++ (pack16 0x1 ++ pack16 0x1 ++ pack16 0xc00c))
        | none => .error ()
      else .ok (response ++ pack16 0x8183)
    | none => .ok (response ++ pack16 0x8183)

/-- Source function parse(query): strip the six big-endian header shorts
(struct.unpack raising on any slice shorter than two bytes), then decode
the question from byte 12 on when the flags are standard, else None. -/
def parse (query : List Nat) : Except Unit (Option (List Nat) × Nat) :=
  match shortOfBytes (pySlice query 0 2) with
  | .error e => .error e
  | .ok txid =>
  match shortOfBytes (pySlice query 2 4) with
  | .error e => .error e
  | .ok flags =>
  match shortOfBytes (pySlice query 4 6) with
  | .error e => .error e
  | .ok _questions =>
  match shortOfBytes (pySlice query 6 8) with
  | .error e => .error e
  | .ok _answers =>
  match shortOfBytes (pySlice query 8 10) with
  | .error e => .error e
  | .ok _authority =>
  match shortOfBytes (pySlice query 10 12) with
  | .error e => .error e
  | .ok _additional =>
    if standard flags then
      match parse_name (query.drop 12) with
      | .error e => .error e
      | .ok name => .ok (name, txid)
    else .ok (none, txid)

/-- One iteration of the dnsbl serving loop, minus the socket transport:
parse the received datagram and build the reply from the transaction id
and the parsed name, `reply(txid, parsed)`. -/
def serve (store : List Nat → Bool) (query : List Nat) :
    Except Unit (List Nat) :=
  match parse query with
  | .error e => .error e
  | .ok (parsed, txid) => reply store txid parsed

/-! Helper lemmas shared by the claim theorems. -/

lemma shortOfBytes_ok {bs : List Nat} {v : Nat} (h : shortOfBytes bs = .ok v) :
    ∃ a b, bs = [a, b] ∧ v = a * 256 + b := by
  match bs with
  | [] => simp [shortOfBytes] at h
  | [a] => simp [shortOfBytes] at h
  | [a, b] =>
    refine ⟨a, b, rfl, ?_⟩
    simp [shortOfBytes] at h
    omega
  | a :: b :: c :: t => simp [shortOfBytes] at h

lemma shortOfNat_ok {n : Nat} {bs : List Nat} (h : shortOfNat n = .ok bs) :
    n ≤ 65535 ∧ bs = pack16 n := by
  rw [shortOfNat] at h
  split at h
  · exact ⟨by assumption, by injection h with h2; exact h2.symm⟩
  · cases h

lemma reply_ok_take_two {store : List Nat → Bool} {txid : Nat}
    {lookup : Option (List Nat)} {r : List Nat}
    (hr : reply store txid lookup = .ok r) : r.take 2 = pack16 txid := by
  rw [reply] at hr
  split at hr
  · cases hr
  · rename_i resp heq
    obtain ⟨-, hresp⟩ := shortOfNat_ok heq
    subst hresp
    split at hr
    · split at hr
      · split at hr
        · injection hr with h; subst h; simp [pack16]
        · cases hr
      · injection hr with h; subst h; simp [pack16]
    · injection hr with h; subst h; simp [pack16]

lemma parse_ok_shape {query : List Nat} {p : Option (List Nat)} {t : Nat}
    (hp : parse query = .ok (p, t)) :
    ∃ a b rest, query = a :: b :: rest ∧ t = a * 256 + b := by
  match query with
  | [] => simp [parse, pySlice, shortOfBytes] at hp
  | [a] => simp [parse, pySlice, shortOfBytes] at hp
  | a :: b :: rest =>
    refine ⟨a, b, rest, rfl, ?_⟩
    rw [parse] at hp
    have h0 : pySlice (a :: b :: rest) 0 2 = [a, b] := by
      simp [pySlice, List.take]
    rw [h0] at hp
    have h1 : shortOfBytes [a, b] = .ok (a * 256 + b) := rfl
    rw [h1] at hp
    repeat' split at hp
    all_goals simp_all

/-- Claim C5 counterexample: encoding the empty name does not yield a
single zero byte. -/
theorem dnsname_empty_not_single_zero : dnsname (S "") ≠ some [0] := by
  decide

/-- Claim C5 (amended): encoding the empty string as a wire-format
domain name yields exactly two zero bytes, because splitting the empty
string produces one empty label before the terminating empty part. -/
theorem dnsname_empty_two_zeros : dnsname (S "") = some [0, 0] := rfl

/-- Claim C10: the header codec short is a mutually inverse pair: for
every integer n with 0 ≤ n ≤ 65535, unpacking the packed bytes returns
n, and for every 2-byte sequence, packing the unpacked value returns the
same bytes. -/
theorem short_roundtrip :
    (∀ n : Nat, n ≤ 65535 → (shortOfNat n).bind shortOfBytes = .ok n) ∧
    (∀ b0 b1 : Nat, b0 < 256 → b1 < 256 →
      (shortOfBytes [b0, b1]).bind shortOfNat = .ok [b0, b1]) := by
  constructor
  · intro n hn
    simp [shortOfNat, hn, pack16, shortOfBytes, Except.bind]
    omega
  · intro b0 b1 h0 h1
    have hle : b0 * 256 + b1 ≤ 65535 := by omega
    simp [shortOfBytes, Except.bind, shortOfNat, hle, pack16]
    omega

/-- Witness for C10 at n = 0x1234 and bytes [0xAB, 0xCD]. -/
theorem short_roundtrip_witness :
    (shortOfNat 0x1234).bind shortOfBytes = .ok 0x1234 ∧
    (shortOfBytes [0xAB, 0xCD]).bind shortOfNat = .ok [0xAB, 0xCD] :=
  ⟨short_roundtrip.1 0x1234 (by decide),
   short_roundtrip.2 0xAB 0xCD (by decide) (by decide)⟩

/-- Claim C7: for every 16-bit flags value, standard(flags) is true iff
flags equals 0x0100 or 0x0120 (no bit outside 0x0100 or 0x0020 set and
the 0x0100 bit set). -/
theorem standard_characterization :
    ∀ flags : Nat, flags < 65536 →
      (standard flags = true ↔ flags = 0x100 ∨ flags = 0x120) := by
  intro flags _
  constructor
  · intro h
    simp only [standard, Bool.and_eq_true, beq_iff_eq, Bool.or_eq_true] at h
    obtain ⟨h1, h2⟩ := h
    have hflags : flags = flags &&& EXPECTED := Nat.xor_eq_zero.mp h1
    rcases h2 with h2 | h2
    · left; rw [hflags, h2]; rfl
    · right; rw [hflags, h2]; rfl
  · rintro (rfl | rfl) <;> decide

/-- Witness for C7 at flags = 0x120. -/
theorem standard_characterization_witness :
    standard 0x120 = true ↔ 0x120 = 0x100 ∨ 0x120 = 0x120 :=
  standard_characterization 0x120 (by decide)

/-- Claim C2: evaluation of the code at failing inputs.  The empty
datagram makes struct.unpack fail on the transaction-id slice, and a
truncated label (declared length 5 with two bytes left) makes the label
loop read past the end of the buffer; both exceptions escape parse
uncaught, instead of the safe rejection the claim requires. -/
theorem parse_crashes_on_truncated_input :
    parse ([] : List Nat) = .error () ∧
    parse [0x12, 0x34, 0x01, 0x00, 0, 1, 0, 0, 0, 0, 0, 0, 5, 97, 98]
      = .error () :=
  ⟨rfl, rfl⟩

/-- Claim C1 counterexample: the queried name example.com does not match
the suffix pattern (ipaddress returns none), yet when the blocklist
store holds the key example.com the served reply carries the success
flags 0x8180 — the store is consulted with the raw queried name, not
with a LookupKeyMapper-derived key. -/
theorem success_reply_without_pattern_match :
    ipaddress (S "example.com") = none ∧
    serve (fun s => s == S "example.com")
      ([0xAB, 0xCD, 0x01, 0x00, 0, 1, 0, 0, 0, 0, 0, 0] ++
        [7] ++ S "example" ++ [3] ++ S "com" ++ [0] ++ [0, 1, 0, 1])
      = .ok ([0xAB, 0xCD, 0x81, 0x80, 0, 1, 0, 1, 0, 0, 0, 0] ++
        [7] ++ S "example" ++ [3] ++ S "com" ++ [0] ++
        [0, 1, 0, 1, 0xc0, 0x0c]) :=
  ⟨rfl, rfl⟩

/-- Claim C3 counterexample: for the query for 4.3.2.1.dnsbl.example.com
with a store where only the reversed key 1.2.3.4 exists, the code
replies with the 4-byte NXDOMAIN, not the claimed success bytes: the
existence check uses the full queried name, which the store lacks. -/
theorem reply_nxdomain_when_store_has_derived_key :
    serve (fun s => s == S "1.2.3.4")
      ([0x12, 0x34, 0x01, 0x00, 0, 1, 0, 0, 0, 0, 0, 0] ++
        [1] ++ S "4" ++ [1] ++ S "3" ++ [1] ++ S "2" ++ [1] ++ S "1" ++
        [5] ++ S "dnsbl" ++ [7] ++ S "example" ++ [3] ++ S "com" ++ [0] ++
        [0, 1, 0, 1])
      = .ok [0x12, 0x34, 0x81, 0x83] ∧
    ([0x12, 0x34, 0x81, 0x83] : List Nat) ≠
      [0x12, 0x34] ++ [0x81, 0x80] ++ [0, 1, 0, 1, 0, 0, 0, 0] ++
        [1] ++ S "4" ++ [1] ++ S "3" ++ [1] ++ S "2" ++ [1] ++ S "1" ++
        [5] ++ S "dnsbl" ++ [7] ++ S "example" ++ [3] ++ S "com" ++ [0] ++
        [0, 1, 0, 1, 0xc0, 0x0c] :=
  ⟨rfl, by decide⟩

/-- Claim C3 (amended): for the standard query with transaction id
0x1234 asking for 4.3.2.1.dnsbl.example.com (type 1, class 1), when the
store reports the full queried name 4.3.2.1.dnsbl.example.com exists,
the reply bytes are exactly the transaction id, flags 0x8180, counts
00 01 00 01 00 00 00 00, the wire-encoded queried name, and
00 01 00 01 C0 0C, with nothing after the compression pointer. -/
theorem reply_success_exact_bytes :
    serve (fun s => s == S "4.3.2.1.dnsbl.example.com")
      ([0x12, 0x34, 0x01, 0x00, 0, 1, 0, 0, 0, 0, 0, 0] ++
        [1] ++ S "4" ++ [1] ++ S "3" ++ [1] ++ S "2" ++ [1] ++ S "1" ++
        [5] ++ S "dnsbl" ++ [7] ++ S "example" ++ [3] ++ S "com" ++ [0] ++
        [0, 1, 0, 1])
      = .ok ([0x12, 0x34] ++ [0x81, 0x80] ++ [0, 1, 0, 1, 0, 0, 0, 0] ++
        [1] ++ S "4" ++ [1] ++ S "3" ++ [1] ++ S "2" ++ [1] ++ S "1" ++
        [5] ++ S "dnsbl" ++ [7] ++ S "example" ++ [3] ++ S "com" ++ [0] ++
        [0, 1, 0, 1, 0xc0, 0x0c]) :=
  rfl

/-- Claim C4 counterexample: the queried name foo.bar does not match the
suffix pattern, yet with a store holding foo.bar the reply is the full
success record, not 4 bytes — a non-matching name does not force the
4-byte NXDOMAIN reply. -/
theorem reply_not_four_bytes_without_pattern_match :
    ipaddress (S "foo.bar") = none ∧
    serve (fun s => s == S "foo.bar")
      ([0x00, 0x07, 0x01, 0x00, 0, 1, 0, 0, 0, 0, 0, 0] ++
        [3] ++ S "foo" ++ [3] ++ S "bar" ++ [0] ++ [0, 1, 0, 1])
      = .ok ([0x00, 0x07, 0x81, 0x80, 0, 1, 0, 1, 0, 0, 0, 0] ++
        [3] ++ S "foo" ++ [3] ++ S "bar" ++ [0] ++
        [0, 1, 0, 1, 0xc0, 0x0c]) ∧
    ([0x00, 0x07, 0x81, 0x80, 0, 1, 0, 1, 0, 0, 0, 0] ++
        [3] ++ S "foo" ++ [3] ++ S "bar" ++ [0] ++
        [0, 1, 0, 1, 0xc0, 0x0c]).length ≠ 4 :=
  ⟨rfl, rfl, by decide⟩

/-- Claim C4 (amended): whenever no queried name is available (lookup
absent), or the name is empty, or the store reports the queried name
absent, the reply is exactly 4 bytes: the big-endian echoed transaction
id followed by flags 0x8183. -/
theorem reply_nxdomain_four_bytes :
    ∀ (store : List Nat → Bool) (txid : Nat) (lookup : Option (List Nat)),
      txid < 65536 →
      (lookup = none ∨ ∃ s, lookup = some s ∧ (s = [] ∨ store s = false)) →
      reply store txid lookup = .ok [txid / 256, txid % 256, 0x81, 0x83] := by
  intro store txid lookup ht h
  have ht' : txid ≤ 65535 := by omega
  have hpk : shortOfNat txid = .ok (pack16 txid) := by
    simp [shortOfNat, ht']
  rcases h with rfl | ⟨s, rfl, hs⟩
  · simp [reply, hpk, pack16]
  · have hneg : ¬(s ≠ [] ∧ store s = true) := by
      rcases hs with rfl | hs
      · simp
      · simp [hs]
    simp [reply, hpk, hneg, pack16]

/-- Witness for C4 (amended) at txid = 0x1234 with no lookup key. -/
theorem reply_nxdomain_four_bytes_witness :
    reply (fun _ => false) 0x1234 none
      = .ok [0x1234 / 256, 0x1234 % 256, 0x81, 0x83] :=
  reply_nxdomain_four_bytes (fun _ => false) 0x1234 none (by decide) (Or.inl rfl)

/-- Claim C1 (amended): the store existence check is made with the
queried name itself, not a LookupKeyMapper-derived key: a produced reply
carries the success flags 0x8180 exactly when the decoded lookup is a
nonempty name that the store reports to exist. -/
theorem reply_success_iff_store_has_queried_name :
    ∀ (store : List Nat → Bool) (txid : Nat) (lookup : Option (List Nat))
      (r : List Nat),
      txid < 65536 → reply store txid lookup = .ok r →
      ((r.drop 2).take 2 = [0x81, 0x80] ↔
        ∃ s, lookup = some s ∧ s ≠ [] ∧ store s = true) := by
  intro store txid lookup r ht hr
  rw [reply] at hr
  split at hr
  · cases hr
  · rename_i resp heq
    obtain ⟨-, hresp⟩ := shortOfNat_ok heq
    subst hresp
    split at hr
    · rename_i s
      split at hr
      · rename_i hcond
        split at hr
        · rename_i nb hnb
          injection hr with h
          subst h
          constructor
          · exact fun _ => ⟨s, rfl, hcond.1, hcond.2⟩
          · exact fun _ => by simp [pack16]
        · cases hr
      · rename_i hcond
        injection hr with h
        subst h
        constructor
        · intro hl; exfalso; simp [pack16] at hl
        · rintro ⟨s', hs', hne, hst⟩
          exfalso
          have hss : s = s' := by injection hs'
          subst hss
          exact hcond ⟨hne, hst⟩
    · injection hr with h
      subst h
      constructor
      · intro hl; exfalso; simp [pack16] at hl
      · rintro ⟨s', hs', -, -⟩; cases hs'

/-- Witness for C1 (amended): at the store holding only the single-label
name x, with that name as the lookup. -/
theorem reply_success_iff_store_has_queried_name_witness :
    (((([0, 1, 0x81, 0x80, 0, 1, 0, 1, 0, 0, 0, 0,
        1, 120, 0, 0, 1, 0, 1, 0xc0, 0x0c] : List Nat).drop 2).take 2
      = [0x81, 0x80]) ↔
      ∃ s, some (S "x") = some s ∧ s ≠ [] ∧ (s == S "x") = true) :=
  reply_success_iff_store_has_queried_name (fun s => s == S "x") 1
    (some (S "x"))
    [0, 1, 0x81, 0x80, 0, 1, 0, 1, 0, 0, 0, 0, 1, 120, 0, 0, 1, 0, 1,
      0xc0, 0x0c]
    (by decide) (by rfl)

/-- Claim C8: for every datagram for which a reply is produced, the
first two bytes of the reply equal the first two bytes of the query (the
big-endian transaction id), in every branch. -/
theorem reply_echoes_txid :
    ∀ (store : List Nat → Bool) (query r : List Nat),
      (∀ x ∈ query, x < 256) → serve store query = .ok r →
      r.take 2 = query.take 2 := by
  intro store query r hb hs
  rw [serve] at hs
  split at hs
  · cases hs
  · rename_i p t heq
    obtain ⟨a, b, rest, rfl, ht⟩ := parse_ok_shape heq
    have ha : a < 256 := hb a (by simp)
    have hbb : b < 256 := hb b (by simp)
    have h2 := reply_ok_take_two hs
    have h3 : (a :: b :: rest).take 2 = [a, b] := rfl
    rw [h2, ht, h3]
    simp [pack16]
    omega

/-- Witness for C8 at a concrete standard query and a store holding
everything. -/
theorem reply_echoes_txid_witness :
    ([0x12, 0x34, 0x81, 0x83] : List Nat).take 2 =
      ([0x12, 0x34, 0x01, 0x00, 0, 1, 0, 0, 0, 0, 0, 0,
        0, 0, 1, 0, 1] : List Nat).take 2 :=
  reply_echoes_txid (fun _ => true)
    [0x12, 0x34, 0x01, 0x00, 0, 1, 0, 0, 0, 0, 0, 0, 0, 0, 1, 0, 1]
    [0x12, 0x34, 0x81, 0x83] (by decide) (by rfl)

/-- Claim C9: on a standard query for the root name (single zero byte)
with type 1 and class 1, the decoder returns the empty string, the reply
is the 4-byte NXDOMAIN for every store, and an empty queried name is
replied to exactly like an absent one. -/
theorem root_name_query_nxdomain :
    ∀ store : List Nat → Bool,
      parse [0x12, 0x34, 0x01, 0x00, 0, 1, 0, 0, 0, 0, 0, 0, 0, 0, 1, 0, 1]
        = .ok (some [], 0x1234) ∧
      serve store
        [0x12, 0x34, 0x01, 0x00, 0, 1, 0, 0, 0, 0, 0, 0, 0, 0, 1, 0, 1]
        = .ok [0x12, 0x34, 0x81, 0x83] ∧
      reply store 0x1234 (some []) = reply store 0x1234 none := by
  intro store
  refine ⟨rfl, ?_, ?_⟩
  · show reply store 0x1234 (some []) = .ok [0x12, 0x34, 0x81, 0x83]
    simp [reply, shortOfNat, pack16]
  · simp [reply]

/-- Witness for C9 at the store holding every key. -/
theorem root_name_query_nxdomain_witness :
    parse [0x12, 0x34, 0x01, 0x00, 0, 1, 0, 0, 0, 0, 0, 0, 0, 0, 1, 0, 1]
      = .ok (some [], 0x1234) ∧
    serve (fun _ => true)
      [0x12, 0x34, 0x01, 0x00, 0, 1, 0, 0, 0, 0, 0, 0, 0, 0, 1, 0, 1]
      = .ok [0x12, 0x34, 0x81, 0x83] ∧
    reply (fun _ => true) 0x1234 (some []) = reply (fun _ => true) 0x1234 none :=
  root_name_query_nxdomain (fun _ => true)

lemma encodeLabels_cons (l : List Nat) (ls : List (List Nat)) :
    encodeLabels (l :: ls) = l.length :: (l ++ encodeLabels ls) := by
  simp [encodeLabels]

lemma encodeLabels_append_empty (ls : List (List Nat)) :
    encodeLabels (ls ++ [[]]) = encodeLabels ls ++ [0] := by
  simp [encodeLabels]

lemma parseNameLoop_encode :
    ∀ (ls : List (List Nat)) (fuel : Nat) (rest : List Nat),
      (∀ l ∈ ls, l ≠ []) → (encodeLabels ls).length < fuel →
      parseNameLoop fuel (encodeLabels ls ++ 0 :: rest) = .ok (ls, rest) := by
  intro ls
  induction ls with
  | nil =>
    intro fuel rest _ hf
    obtain ⟨f, rfl⟩ : ∃ f, fuel = f + 1 := ⟨fuel - 1, by omega⟩
    simp [encodeLabels, parseNameLoop]
  | cons l ls ih =>
    intro fuel rest hne hf
    rw [encodeLabels_cons] at hf ⊢
    obtain ⟨f, rfl⟩ : ∃ f, fuel = f + 1 := ⟨fuel - 1, by omega⟩
    have hl0 : ¬(l.length = 0) := by
      intro h0
      exact hne l (List.mem_cons_self l ls) (List.length_eq_zero.mp h0)
    rw [List.cons_append, List.append_assoc]
    simp only [parseNameLoop, hl0, if_false, ite_false]
    rw [List.drop_left, List.take_left]
    have hge : (encodeLabels ls).length < f := by
      simp at hf
      omega
    rw [ih f rest (fun x hx => hne x (List.mem_cons_of_mem l hx)) hge]

/-- Claim C6: for every domain-name byte string n all of whose
dot-separated labels are non-empty and fit in one length byte, the
encoder succeeds and decoding the length-prefixed labels of the encoding
terminates exactly at the trailing zero byte, yielding the sequence
split(n, "."). -/
theorem dnsname_parse_roundtrip :
    ∀ n : List Nat, (∀ l ∈ n.splitOn 46, l ≠ [] ∧ l.length ≤ 255) →
      ∃ bs, dnsname n = some bs ∧
        parseNameLoop (bs.length + 1) bs = .ok (n.splitOn 46, []) := by
  intro n h
  have hall : ((n.splitOn 46) ++ [[]]).all (fun p => p.length ≤ 255) = true := by
    rw [List.all_eq_true]
    intro p hp
    rcases List.mem_append.mp hp with hp | hp
    · simpa using (h p hp).2
    · simp at hp; subst hp; simp
  refine ⟨encodeLabels (n.splitOn 46) ++ [0], ?_, ?_⟩
  · simp only [dnsname, hall, if_true]
    rw [encodeLabels_append_empty]
  · have h01 : encodeLabels (n.splitOn 46) ++ [0]
        = encodeLabels (n.splitOn 46) ++ 0 :: [] := rfl
    rw [h01]
    apply parseNameLoop_encode _ _ _ (fun l hl => (h l hl).1)
    simp [List.length_append]
    omega

/-- Witness for C6 at the name a.bc. -/
theorem dnsname_parse_roundtrip_witness :
    ∃ bs, dnsname (S "a.bc") = some bs ∧
      parseNameLoop (bs.length + 1) bs = .ok ((S "a.bc").splitOn 46, []) :=
  dnsname_parse_roundtrip (S "a.bc") (by decide)

end Dnsbl
